import Mathlib

/-!
Verification of the drawing-execution core of the Speech-to-Action robotic
drawing application.

The controller side is the RAPID module `InputDrawing` (socket protocol:
command case dispatch, single-point travel moves, batched draw moves).
Strings are modelled as `List Char`; RAPID's 1-based string builtins
`StrFind`/`StrPart`/`StrToVal` are modelled below with ABB semantics:
`StrFind` returns `StrLen + 1` when the set character is not found (it never
returns 0, so the module's `> 0` guards always pass), and raises a runtime
error when the start position lies outside `1 .. StrLen + 1`; such a runtime
error propagates to the enclosing `PROC`'s `ERROR` handler, which sends `E`.
Socket traffic is modelled as a trace: the controller consumes a list of
incoming socket events and produces a list of outputs (sent tokens and
executed `MoveL` targets).

The client side is the React component `App.tsx`; its handlers are modelled
as pure transitions on the component state together with the list of
socket.io events they emit to the backend.
-/

/-- A 3-D position: translation part of a RAPID `robtarget`
(x, y, z components of `trans`). -/
def Point : Type := ℚ × ℚ × ℚ

instance : DecidableEq Point := by unfold Point; infer_instance

/-- Translation part of `CONST robtarget WorkSpaceCenter1`
(`[75.78, 312.76, 9.799641871]`). -/
def WorkSpaceCenter1 : Point := ((75.78 : ℚ), (312.76 : ℚ), (9.799641871 : ℚ))

/-- Modelled RAPID builtin `Offs(target, dx, dy, dz)`: displace a robtarget by
the three given offsets, componentwise. -/
def Offs (p : Point) (dx dy dz : ℚ) : Point :=
  (p.1 + dx, p.2.1 + dy, p.2.2 + dz)

/-- `CONST string RESP_R := "R"` -/
def RESP_R : String := "R"

/-- `CONST string RESP_C := "C"` -/
def RESP_C : String := "C"

/-- `CONST string RESP_D := "D"` -/
def RESP_D : String := "D"

/-- `CONST string RESP_RE := "Re"` -/
def RESP_RE : String := "Re"

/-- `CONST string RESP_E := "E"` -/
def RESP_E : String := "E"

/-- `CONST num DRAW_BATCH_RECEIVE_TIMEOUT := 10` (seconds). -/
def DRAW_BATCH_RECEIVE_TIMEOUT : Nat := 10

/-- Value of a list of decimal digit characters, as a rational. -/
def digitsVal (ds : List Char) : ℚ :=
  ds.foldl (fun n c => 10 * n + ((c.toNat - 48 : ℕ) : ℚ)) 0

/-- Value of a list of decimal digit characters, as a natural number (used
for exponents). -/
def digitsNat (ds : List Char) : ℕ :=
  ds.foldl (fun n c => 10 * n + (c.toNat - 48)) 0

/-- The optional exponent suffix of a RAPID num literal:
`(E | e) [+ | -] digits`.  `some m` is the scale factor the exponent denotes
(`1` for the empty suffix); `none` means the remaining characters are not a
well-formed exponent, so the whole literal is invalid. -/
def parseExpSuffix : List Char → Option ℚ
  | [] => some 1
  | e :: r =>
      if e = 'E' ∨ e = 'e' then
        let ebody := if r.head? = some '-' ∨ r.head? = some '+' then r.tail else r
        if ebody = [] ∨ ¬ ebody.all Char.isDigit then none
        else if r.head? = some '-' then some (1 / (10 : ℚ) ^ digitsNat ebody)
        else some ((10 : ℚ) ^ digitsNat ebody)
      else none

/-- Modelled RAPID builtin `StrToVal` at type `num`, following the num
literal grammar (RAPID kernel, basic elements): an optional sign, then
`digits`, `digits . digits?` or `digits? . digits`, then an optional
exponent `E`/`e` with optional sign (as in the module's own `9E+09`
literals).  Returns `none` when the string is not a numeric literal (RAPID's
`StrToVal` returning `FALSE`). -/
def StrToVal (s : List Char) : Option ℚ :=
  let sign : ℚ := if s.head? = some '-' then -1 else 1
  let body : List Char :=
    if s.head? = some '-' ∨ s.head? = some '+' then s.tail else s
  let intPart := body.takeWhile Char.isDigit
  let rest := body.dropWhile Char.isDigit
  let fr : List Char × List Char :=
    match rest with
    | '.' :: r => (r.takeWhile Char.isDigit, r.dropWhile Char.isDigit)
    | r => ([], r)
  if intPart = [] ∧ fr.1 = [] then none
  else
    match parseExpSuffix fr.2 with
    | some m =>
        some (sign * (digitsVal intPart + digitsVal fr.1 / (10 : ℚ) ^ fr.1.length) * m)
    | none => none

/-- Modelled RAPID builtin `StrFind` restricted to the comma set as used
throughout `InputDrawing`, relative to a suffix: 1-based position of the
first `,`, or `length + 1` when there is none — ABB `StrFind` never
returns 0, so the module's `> 0` guards always pass. -/
def StrFind1 : List Char → Nat
  | [] => 1
  | c :: r => if c = ',' then 1 else StrFind1 r + 1

/-- Modelled RAPID builtin `StrFind(s, pos, ",")`: `some` of the 1-based
position of the first `,` at or after `pos` (or `StrLen + 1` when there is
none); `none` models the runtime error ABB RAPID raises when the start
position lies outside `1 .. StrLen + 1`. -/
def StrFind (s : List Char) (pos : Nat) : Option Nat :=
  if 1 ≤ pos ∧ pos ≤ s.length + 1 then
    some (pos - 1 + StrFind1 (s.drop (pos - 1)))
  else none

/-- Modelled RAPID builtin `StrPart(s, pos, len)`: the substring of length
`len` starting at 1-based position `pos`.  (A negative `len` raises a
runtime error in RAPID; the callers below check for that case explicitly
before using `StrPart`, since natural-number subtraction would silently
truncate it to 0.) -/
def StrPart (s : List Char) (pos len : Nat) : List Char :=
  (s.drop (pos - 1)).take len

/-- `PROC ConvertSocketStrToCmd`: `StrToVal(data_str, command_case_num)`;
`some` is `conversion_success_flag = TRUE` with the stored case number. -/
def ConvertSocketStrToCmd (data_str : List Char) : Option ℚ :=
  StrToVal data_str

/-- Result of `PROC ConvertSocketStrToSinglePoint`: conversion succeeded
(`ok`, the flag is `TRUE`), conversion failed with the flag left `FALSE`
(`fail`), or a RAPID runtime error was raised and propagates to the calling
`PROC`'s `ERROR` handler (`rapidError`). -/
inductive ConvResult where
  | ok (p : ℚ × ℚ × ℚ)
  | fail
  | rapidError
  deriving DecidableEq

/-- `PROC ConvertSocketStrToSinglePoint`: find the first two commas, split
the payload into three fields, and convert each with `StrToVal`.  Under ABB
`StrFind` semantics two runtime-error paths exist: when the payload has no
comma, `idx1 = StrLen + 1` and the second `StrFind` starts at `StrLen + 2`,
out of range; when it has exactly one comma, `idx2 = StrLen + 1` and the
third `StrPart` is called with negative length `StrLen - idx2 = -1`.  Both
errors reach `HandleCase0_MoveSinglePoint`'s `ERROR` handler.  The `idx1 > 0
AND idx2 > 0` guard from the source is kept although it always holds. -/
def ConvertSocketStrToSinglePoint (data_str : List Char) : ConvResult :=
  match StrFind data_str 1 with
  | none => ConvResult.rapidError
  | some idx1 =>
    match StrFind data_str (idx1 + 1) with
    | none => ConvResult.rapidError
    | some idx2 =>
      if idx1 > 0 ∧ idx2 > 0 then
        if data_str.length < idx2 then ConvResult.rapidError
        else
          match StrToVal (StrPart data_str 1 (idx1 - 1)),
                StrToVal (StrPart data_str (idx1 + 1) (idx2 - idx1 - 1)),
                StrToVal (StrPart data_str (idx2 + 1) (data_str.length - idx2)) with
          | some x, some y, some z => ConvResult.ok (x, y, z)
          | _, _, _ => ConvResult.fail
      else ConvResult.fail

/-- Result of one iteration of `PROC ParseAndMoveBatch`'s `WHILE` loop: a
`MoveL` was executed and the loop continues on the remaining suffix
(`move`), the loop ends without error (`parse_ok` stayed `FALSE` or the
string is exhausted, `stop`), or a RAPID runtime error was raised and
propagates out of the `PROC` (`rapidError`). -/
inductive BatchStep where
  | move (p : Point) (rest : List Char)
  | stop
  | rapidError
  deriving DecidableEq

/-- One iteration of `PROC ParseAndMoveBatch`'s `WHILE` loop, operating on
the suffix of the batch string from `current_pos` on (the loop runs while
`current_pos <= StrLen`, i.e. while the suffix is nonempty).  With ABB
`StrFind` semantics the `next_comma_idx > 0` guards always pass:

* the x field is everything up to the first comma; when the suffix has no
  comma (`i = length + 1`), `current_pos` lands at `StrLen + 2` and the next
  `StrFind` call is out of range — a runtime error (`rapidError`);
* the y field is everything up to the next comma (or the rest of the
  string); when nothing remains afterwards, the `current_pos <= StrLen`
  check fails, `parse_ok` stays `FALSE` and the loop ends (`stop`);
* the z field is everything up to the next comma or the unterminated
  remainder; the third `StrFind` starts inside the string, so it cannot
  raise;
* when all three fields convert, `MoveL Offs(WorkSpaceCenter1, x, y, z)` is
  executed and the loop continues after the consumed fields; otherwise
  `parse_ok` stays `FALSE`, `current_pos` is set past the end and the loop
  ends. -/
def parseIter (s : List Char) : BatchStep :=
  if s = [] then BatchStep.stop
  else
    let i := StrFind1 s
    let xStr := s.take (i - 1)
    if s.length < i then BatchStep.rapidError
    else
      let s1 := s.drop i
      let j := StrFind1 s1
      let yStr := s1.take (j - 1)
      let s2 := s1.drop j
      if s2 = [] then BatchStep.stop
      else
        let k := StrFind1 s2
        let zStr := s2.take (k - 1)
        let s3 := s2.drop k
        match StrToVal xStr, StrToVal yStr, StrToVal zStr with
        | some x, some y, some z => BatchStep.move (Offs WorkSpaceCenter1 x y z) s3
        | _, _, _ => BatchStep.stop

/-- The `WHILE` loop of `PROC ParseAndMoveBatch`: iterate `parseIter`,
collecting the executed `MoveL` targets, and record whether the loop ended
in a runtime error (`true`) or normally (`false`).  `fuel` bounds the number
of iterations; the wrapper `ParseAndMoveBatch` supplies enough fuel for the
whole string, and each iteration consumes at least one character. -/
def parseLoop : Nat → List Char → List Point × Bool
  | 0, _ => ([], false)
  | fuel + 1, s =>
      match parseIter s with
      | BatchStep.move p s3 =>
          (p :: (parseLoop fuel s3).1, (parseLoop fuel s3).2)
      | BatchStep.stop => ([], false)
      | BatchStep.rapidError => ([], true)

/-- `PROC ParseAndMoveBatch`: the sequence of `MoveL` targets executed for
one batch payload, together with a flag telling whether a runtime error
escaped the `PROC` (to be caught by the caller's `ERROR` handler). -/
def ParseAndMoveBatch (batch_data_str : List Char) : List Point × Bool :=
  parseLoop (batch_data_str.length + 1) batch_data_str

/-- One incoming socket event as seen by a `SocketReceive` call: a received
message, a receive timeout, or any other socket error. -/
inductive SockIn where
  | msg (s : List Char)
  | timeout
  | fail
  deriving DecidableEq

/-- One observable controller action: a `SocketSend` of a token, or a `MoveL`
to a target. -/
inductive Out where
  | send (tok : String)
  | move (p : Point)
  deriving DecidableEq

/-- `PROC HandleCase0_MoveSinglePoint`: receive one payload; on successful
conversion send `R`, execute `MoveL Offs(WorkSpaceCenter1, ...)`, send `D`;
on conversion failure send `E`; a receive timeout, another socket error, or
a runtime error raised inside the conversion reaches the `PROC`'s `ERROR`
handler, which sends `E` in every branch. -/
def HandleCase0_MoveSinglePoint : List SockIn → List Out
  | [] => []
  | SockIn.timeout :: _ => [Out.send RESP_E]
  | SockIn.fail :: _ => [Out.send RESP_E]
  | SockIn.msg s :: _ =>
      match ConvertSocketStrToSinglePoint s with
      | ConvResult.ok (x, y, z) =>
          [Out.send RESP_R, Out.move (Offs WorkSpaceCenter1 x y z), Out.send RESP_D]
      | ConvResult.fail => [Out.send RESP_E]
      | ConvResult.rapidError => [Out.send RESP_E]

/-- `PROC HandleCase1_DrawBatchPoints`: repeatedly receive a batch (with
`\Time := DRAW_BATCH_RECEIVE_TIMEOUT`), execute its moves, and acknowledge
it with `R` then `Re`.  On a receive timeout the `ERROR` handler sends `D`
and the exchange ends; on any other socket error it sends `E` and ends; a
runtime error propagating out of `ParseAndMoveBatch` also reaches the
`ERROR` handler (with `ERRNO` not the socket timeout), which sends `E` and
ends the exchange — with the moves executed before the error left done. -/
def HandleCase1_DrawBatchPoints : List SockIn → List Out
  | [] => []
  | SockIn.timeout :: _ => [Out.send RESP_D]
  | SockIn.fail :: _ => [Out.send RESP_E]
  | SockIn.msg s :: rest =>
      (ParseAndMoveBatch s).1.map Out.move ++
        (if (ParseAndMoveBatch s).2 then [Out.send RESP_E]
         else [Out.send RESP_R, Out.send RESP_RE]
           ++ HandleCase1_DrawBatchPoints rest)

/-- One iteration of `PROC Main`'s `WHILE` body in the connected state
(lines 49-66): convert the received command string; on success send `R` then
`C` and dispatch on the case number (`0` travel, `1` draw batch, otherwise
send `E`); on conversion failure send `E`. -/
def MainIteration (cmd : List Char) (ins : List SockIn) : List Out :=
  match ConvertSocketStrToCmd cmd with
  | some n =>
      Out.send RESP_R :: Out.send RESP_C ::
        (if n = 0 then HandleCase0_MoveSinglePoint ins
         else if n = 1 then HandleCase1_DrawBatchPoints ins
         else [Out.send RESP_E])
  | none => [Out.send RESP_E]

/-- The tokens sent on the socket, in order, extracted from an output trace. -/
def sentTokens (outs : List Out) : List String :=
  outs.filterMap fun o =>
    match o with
    | Out.send tok => some tok
    | Out.move _ => none

/-- One entry of `drawingHistory` (`interface DrawingHistoryItem` in
`App.tsx`), restricted to the fields the modelled handlers read. -/
structure DrawingHistoryItem where
  drawing_id : String
  original_filename : String
  progress : ℚ
  deriving DecidableEq

/-- The `App` component state touched by the modelled handlers (each field is
one `useState` hook in `App.tsx`). -/
structure UiState where
  isDrawingActive : Bool
  activeDrawingId : Option String
  drawingProgressMessage : String
  drawingProgressPercent : ℚ
  showThresholdModal : Bool
  selectedThresholdKey : String
  thresholdPreviewImage : Option String
  lastCommandResponse : String
  deriving DecidableEq

/-- A non-NaN JavaScript number as produced by `parseFloat`: a finite
rational, or positive or negative infinity (`parseFloat("Infinity")`). -/
inductive JsNum where
  | fin (q : ℚ)
  | posInf
  | negInf
  deriving DecidableEq

/-- A socket.io event emitted by the frontend to the Python backend.  The
argument names of `sendCustomCoordinates` are the JSON keys of the emitted
payload, in the order they appear in the source literal
`{ x_py: x_val, z_py: y_val, y_py: z_val }`. -/
inductive Emit where
  | resumeDrawingRequest (drawing_id : String)
  | restartDrawingRequest (drawing_id : String)
  | sendCustomCoordinates (x_py z_py y_py : JsNum)
  deriving DecidableEq

/-- JavaScript's `x || d` for a possibly-missing string (`undefined`, and the
empty string, are falsy). -/
def jsOrString (v : Option String) (d : String) : String :=
  match v with
  | none => d
  | some s => if s = "" then d else s

/-- JavaScript's `x || 0` for a possibly-missing number (`undefined`, and `0`
itself, are falsy; both yield `0`). -/
def jsOrZero (v : Option ℚ) : ℚ :=
  match v with
  | none => 0
  | some p => if p = 0 then 0 else p

/-- The scale factor denoted by a well-formed exponent at the head of the
remaining input, for `parseFloat`: `[eE] [+-]? digits`, reading as many
digits as possible; when no well-formed exponent starts here, the exponent
is simply not consumed and the factor is `1` (JavaScript's longest-valid-
prefix rule: `parseFloat("1e") = 1`, `parseFloat("1e5x") = 100000`). -/
def jsExpFactor : List Char → ℚ
  | [] => 1
  | e :: r =>
      if e = 'E' ∨ e = 'e' then
        let ebody := if r.head? = some '-' ∨ r.head? = some '+' then r.tail else r
        let eds := ebody.takeWhile Char.isDigit
        if eds = [] then 1
        else if r.head? = some '-' then 1 / (10 : ℚ) ^ digitsNat eds
        else (10 : ℚ) ^ digitsNat eds
      else 1

/-- Modelled JavaScript builtin `parseFloat`: skip leading whitespace, then
read the longest prefix that is a valid decimal: optional sign, then either
the exact word `Infinity` (yielding an infinity), or digits with an optional
fractional part (at least one digit overall) and an optional well-formed
exponent; all trailing characters are ignored.  `none` is `NaN` (no valid
prefix). -/
def jsParseFloat (s : String) : Option JsNum :=
  let cs := s.data.dropWhile fun c => c = ' ' ∨ c = '\t' ∨ c = '\n' ∨ c = '\r'
  let body : List Char :=
    if cs.head? = some '-' ∨ cs.head? = some '+' then cs.tail else cs
  if body.take 8 = ['I', 'n', 'f', 'i', 'n', 'i', 't', 'y'] then
    some (if cs.head? = some '-' then JsNum.negInf else JsNum.posInf)
  else
    let sign : ℚ := if cs.head? = some '-' then -1 else 1
    let intPart := body.takeWhile Char.isDigit
    let rest := body.dropWhile Char.isDigit
    let fr : List Char × List Char :=
      match rest with
      | '.' :: r => (r.takeWhile Char.isDigit, r.dropWhile Char.isDigit)
      | r => ([], r)
    if intPart = [] ∧ fr.1 = [] then none
    else
      some (JsNum.fin
        (sign * (digitsVal intPart + digitsVal fr.1 / (10 : ℚ) ^ fr.1.length)
          * jsExpFactor fr.2))

/-- Label of the `xCoord` input field (`htmlFor="x-coord"`). -/
def xCoordLabel : String := "X (paper, mm):"

/-- Label of the `yCoord` input field (`htmlFor="y-coord"`). -/
def yCoordLabel : String := "Depth (pen, mm):"

/-- Label of the `zCoord` input field (`htmlFor="z-coord"`). -/
def zCoordLabel : String := "Side (paper, mm):"

/-- `handleProcessAndDrawUploadedImage`: rejected while a drawing is active or
the robot is disconnected; with an uploaded backend image path it opens the
threshold modal (resetting the preselection to `THRESHOLD_OPTIONS[2].key`,
i.e. `"opt3"`); otherwise it reports the missing path.  It emits nothing
itself (the emit happens later from the modal's confirm handler).  `alert`
calls are local dialogs and are not modelled. -/
def handleProcessAndDrawUploadedImage (isRobotConnected : Bool)
    (uploadedFilePathFromBackend : Option String) (st : UiState) :
    UiState × List Emit :=
  if st.isDrawingActive then (st, [])
  else if !isRobotConnected then
    ({ st with lastCommandResponse := "Error: Robot not connected." }, [])
  else
    match uploadedFilePathFromBackend with
    | some _ =>
        ({ st with selectedThresholdKey := "opt3",
                   thresholdPreviewImage := none,
                   showThresholdModal := true }, [])
    | none =>
        ({ st with lastCommandResponse := "Error: No backend image path available." }, [])

/-- `handleResumeDrawingFromHistory`: rejected while a drawing is active;
otherwise, when the socket exists and the backend is connected, mark the
drawing active, set the progress to `historyItem?.progress || 0`, and emit
`resume_drawing_request` for the id; without a backend connection do
nothing. -/
def handleResumeDrawingFromHistory (connectedToBackend : Bool)
    (drawingHistory : List DrawingHistoryItem) (st : UiState)
    (drawingId : String) : UiState × List Emit :=
  if st.isDrawingActive then (st, [])
  else if connectedToBackend then
    let historyItem := drawingHistory.find? (fun it => it.drawing_id = drawingId)
    ({ st with isDrawingActive := true,
               activeDrawingId := some drawingId,
               drawingProgressMessage :=
                 "Attempting to resume: "
                   ++ jsOrString (historyItem.map (fun it => it.original_filename)) drawingId,
               drawingProgressPercent :=
                 jsOrZero (historyItem.map (fun it => it.progress)) },
     [Emit.resumeDrawingRequest drawingId])
  else (st, [])

/-- `handleRestartDrawingFromHistory`: same guards as resume, but the progress
is reset to `0` and `restart_drawing_request` is emitted. -/
def handleRestartDrawingFromHistory (connectedToBackend : Bool)
    (drawingHistory : List DrawingHistoryItem) (st : UiState)
    (drawingId : String) : UiState × List Emit :=
  if st.isDrawingActive then (st, [])
  else if connectedToBackend then
    let historyItem := drawingHistory.find? (fun it => it.drawing_id = drawingId)
    ({ st with isDrawingActive := true,
               activeDrawingId := some drawingId,
               drawingProgressMessage :=
                 "Attempting to restart: "
                   ++ jsOrString (historyItem.map (fun it => it.original_filename)) drawingId,
               drawingProgressPercent := 0 },
     [Emit.restartDrawingRequest drawingId])
  else (st, [])

/-- `handleSendCustomCoordinates`: rejected when the robot is disconnected or
a drawing is active; parse the three coordinate inputs with `parseFloat`;
when any is `NaN`, reject without emitting; otherwise (when the socket
exists) emit `send_custom_coordinates` with
`{ x_py: x_val, z_py: y_val, y_py: z_val }`. -/
def handleSendCustomCoordinates (isRobotConnected socketPresent : Bool)
    (st : UiState) (xCoord yCoord zCoord : String) : UiState × List Emit :=
  if !isRobotConnected then (st, [])
  else if st.isDrawingActive then (st, [])
  else
    match jsParseFloat xCoord, jsParseFloat yCoord, jsParseFloat zCoord with
    | some x_val, some y_val, some z_val =>
        if socketPresent then
          ({ st with lastCommandResponse := "Sent custom coords" },
           [Emit.sendCustomCoordinates x_val y_val z_val])
        else (st, [])
    | _, _, _ => (st, [])

/-- The batch fields of a list of points: converts each comma-separated field
triple with `StrToVal`; `some pts` when the field count is a multiple of three
and every field is numeric. -/
def toPoints : List (List Char) → Option (List (ℚ × ℚ × ℚ))
  | [] => some []
  | a :: b :: c :: rest =>
      match StrToVal a, StrToVal b, StrToVal c, toPoints rest with
      | some x, some y, some z, some ps => some ((x, y, z) :: ps)
      | _, _, _, _ => none
  | _ => none

/-- The wire string made of the given fields, each terminated by a comma,
followed by a trailing string: `f1,f2,...,fn,s`. -/
def withTail : List (List Char) → List Char → List Char
  | [], s => s
  | f :: rest, s => f ++ ',' :: withTail rest s

/-- The wire string made of the given fields separated by commas, with no
trailing comma: `f1,f2,...,fn`. -/
def joinComma : List (List Char) → List Char
  | [] => []
  | [f] => f
  | f :: g :: rest => f ++ ',' :: joinComma (g :: rest)

/-- The `MoveL` targets for a list of raw point triples: each is the offset of
`WorkSpaceCenter1` by the triple's fields, in order. -/
def moveTargets (pts : List (ℚ × ℚ × ℚ)) : List Point :=
  pts.map fun p => Offs WorkSpaceCenter1 p.1 p.2.1 p.2.2

lemma StrFind1_not_found (a : List Char) (ha : ',' ∉ a) :
    StrFind1 a = a.length + 1 := by
  induction a with
  | nil => rfl
  | cons c r ih =>
      simp only [List.mem_cons, not_or] at ha
      have hc : ¬(c = ',') := fun h => ha.1 h.symm
      simp [StrFind1, hc, ih ha.2]

lemma StrFind1_found (a r : List Char) (ha : ',' ∉ a) :
    StrFind1 (a ++ ',' :: r) = a.length + 1 := by
  induction a with
  | nil => simp [StrFind1]
  | cons c t ih =>
      simp only [List.mem_cons, not_or] at ha
      have hc : ¬(c = ',') := fun h => ha.1 h.symm
      simp [StrFind1, hc, ih ha.2]

lemma StrFind1_pos (s : List Char) : 1 ≤ StrFind1 s := by
  cases s with
  | nil => exact le_refl 1
  | cons c r =>
      simp only [StrFind1]
      split <;> omega

lemma take_at_comma (a r : List Char) (c : Char) :
    (a ++ c :: r).take a.length = a :=
  List.take_left a (c :: r)

lemma drop_past_comma (a r : List Char) (c : Char) :
    (a ++ c :: r).drop (a.length + 1) = r := by
  have h1 : a ++ c :: r = (a ++ [c]) ++ r := by simp
  have h2 : a.length + 1 = (a ++ [c]).length := by simp
  rw [h1, h2, List.drop_left]

lemma StrToVal_nil : StrToVal [] = none := rfl

lemma StrToVal_digit (c : Char) (hc : c.isDigit = true) :
    StrToVal [c] = some ((c.toNat - 48 : ℕ) : ℚ) := by
  have hm : c ≠ '-' := by rintro rfl; exact absurd hc (by decide)
  have hp : c ≠ '+' := by rintro rfl; exact absurd hc (by decide)
  simp [StrToVal, hm, hp, hc, digitsVal, parseExpSuffix]

lemma ne_nil_of_StrToVal {c : List Char} {v : ℚ} (h : StrToVal c = some v) :
    c ≠ [] := by
  intro h0
  rw [h0, StrToVal_nil] at h
  exact Option.noConfusion h

lemma jsParseFloat_digit (c : Char) (hc : c.isDigit = true) :
    jsParseFloat (String.mk [c]) = some (JsNum.fin ((c.toNat - 48 : ℕ) : ℚ)) := by
  have hm : c ≠ '-' := by rintro rfl; exact absurd hc (by decide)
  have hp : c ≠ '+' := by rintro rfl; exact absurd hc (by decide)
  have hws : ¬(c = ' ' ∨ c = '\t' ∨ c = '\n' ∨ c = '\r') := by
    rintro (rfl | rfl | rfl | rfl) <;> exact absurd hc (by decide)
  have hI : c ≠ 'I' := by rintro rfl; exact absurd hc (by decide)
  simp [jsParseFloat, hm, hp, hws, hI, hc, digitsVal, jsExpFactor]

lemma parseIter_nil : parseIter [] = BatchStep.stop := rfl

lemma parseIter_point_cons (a b c s : List Char) (x y z : ℚ)
    (ha : ',' ∉ a) (hb : ',' ∉ b) (hc : ',' ∉ c)
    (hx : StrToVal a = some x) (hy : StrToVal b = some y) (hz : StrToVal c = some z) :
    parseIter (a ++ ',' :: (b ++ ',' :: (c ++ ',' :: s)))
      = BatchStep.move (Offs WorkSpaceCenter1 x y z) s := by
  have h1 : StrFind1 (a ++ ',' :: (b ++ ',' :: (c ++ ',' :: s))) = a.length + 1 :=
    StrFind1_found a _ ha
  have hno : ¬ ((a ++ ',' :: (b ++ ',' :: (c ++ ',' :: s))).length < a.length + 1) := by
    simp [List.length_append]
  have h2 : StrFind1 (b ++ ',' :: (c ++ ',' :: s)) = b.length + 1 := StrFind1_found b _ hb
  have h3 : StrFind1 (c ++ ',' :: s) = c.length + 1 := StrFind1_found c _ hc
  simp only [parseIter, h1, hno, h2, h3, Nat.add_sub_cancel, take_at_comma,
    drop_past_comma, hx, hy, hz, if_false]
  simp

lemma parseIter_point_last (a b c : List Char) (x y z : ℚ)
    (ha : ',' ∉ a) (hb : ',' ∉ b) (hc : ',' ∉ c)
    (hx : StrToVal a = some x) (hy : StrToVal b = some y) (hz : StrToVal c = some z) :
    parseIter (a ++ ',' :: (b ++ ',' :: c))
      = BatchStep.move (Offs WorkSpaceCenter1 x y z) [] := by
  have h1 : StrFind1 (a ++ ',' :: (b ++ ',' :: c)) = a.length + 1 := StrFind1_found a _ ha
  have hno : ¬ ((a ++ ',' :: (b ++ ',' :: c)).length < a.length + 1) := by
    simp [List.length_append]
  have h2 : StrFind1 (b ++ ',' :: c) = b.length + 1 := StrFind1_found b _ hb
  have h3 : StrFind1 c = c.length + 1 := StrFind1_not_found c hc
  have hcne : c ≠ [] := ne_nil_of_StrToVal hz
  have htake : c.take (c.length + 1 - 1) = c := by
    rw [Nat.add_sub_cancel, List.take_length]
  have hdrop : c.drop (c.length + 1) = [] := List.drop_eq_nil_of_le (by omega)
  simp only [parseIter, h1, hno, h2, h3, Nat.add_sub_cancel, take_at_comma,
    drop_past_comma, htake, hdrop, hx, hy, hz, if_false]
  simp [hcne, hz]

lemma parseIter_fail_cons (a b c t : List Char)
    (ha : ',' ∉ a) (hb : ',' ∉ b) (hc : ',' ∉ c)
    (hfail : StrToVal a = none ∨ StrToVal b = none ∨ StrToVal c = none) :
    parseIter (a ++ ',' :: (b ++ ',' :: (c ++ ',' :: t))) = BatchStep.stop := by
  have h1 : StrFind1 (a ++ ',' :: (b ++ ',' :: (c ++ ',' :: t))) = a.length + 1 :=
    StrFind1_found a _ ha
  have hno : ¬ ((a ++ ',' :: (b ++ ',' :: (c ++ ',' :: t))).length < a.length + 1) := by
    simp [List.length_append]
  have h2 : StrFind1 (b ++ ',' :: (c ++ ',' :: t)) = b.length + 1 := StrFind1_found b _ hb
  have h3 : StrFind1 (c ++ ',' :: t) = c.length + 1 := StrFind1_found c _ hc
  simp only [parseIter, h1, hno, h2, h3, Nat.add_sub_cancel, take_at_comma,
    drop_past_comma, if_false]
  rcases hA : StrToVal a with _ | xa <;> rcases hB : StrToVal b with _ | xb <;>
    rcases hC : StrToVal c with _ | xc <;> simp_all

lemma parseIter_fail_last (a b c : List Char)
    (ha : ',' ∉ a) (hb : ',' ∉ b) (hc : ',' ∉ c)
    (hfail : StrToVal a = none ∨ StrToVal b = none ∨ StrToVal c = none) :
    parseIter (a ++ ',' :: (b ++ ',' :: c)) = BatchStep.stop := by
  have h1 : StrFind1 (a ++ ',' :: (b ++ ',' :: c)) = a.length + 1 := StrFind1_found a _ ha
  have hno : ¬ ((a ++ ',' :: (b ++ ',' :: c)).length < a.length + 1) := by
    simp [List.length_append]
  have h2 : StrFind1 (b ++ ',' :: c) = b.length + 1 := StrFind1_found b _ hb
  by_cases hcn : c = []
  · subst hcn
    simp only [parseIter, h1, hno, h2, Nat.add_sub_cancel, take_at_comma,
      drop_past_comma, if_false]
    simp
  · have h3 : StrFind1 c = c.length + 1 := StrFind1_not_found c hc
    have htake : c.take (c.length + 1 - 1) = c := by
      rw [Nat.add_sub_cancel, List.take_length]
    have hdrop : c.drop (c.length + 1) = [] := List.drop_eq_nil_of_le (by omega)
    simp only [parseIter, h1, hno, h2, h3, Nat.add_sub_cancel, take_at_comma,
      drop_past_comma, htake, hdrop, if_false]
    rcases hA : StrToVal a with _ | xa <;> rcases hB : StrToVal b with _ | xb <;>
      rcases hC : StrToVal c with _ | xc <;> simp_all

lemma parseIter_err (a : List Char) (ha : ',' ∉ a) (hne : a ≠ []) :
    parseIter a = BatchStep.rapidError := by
  have h1 : StrFind1 a = a.length + 1 := StrFind1_not_found a ha
  simp [parseIter, hne, h1, Nat.lt_succ_self]

lemma parseIter_two_field (a b : List Char) (ha : ',' ∉ a) (hb : ',' ∉ b) :
    parseIter (a ++ ',' :: b) = BatchStep.stop := by
  have h1 : StrFind1 (a ++ ',' :: b) = a.length + 1 := StrFind1_found a b ha
  have hno : ¬ ((a ++ ',' :: b).length < a.length + 1) := by
    simp [List.length_append]
  have h2 : StrFind1 b = b.length + 1 := StrFind1_not_found b hb
  have hdrop : b.drop (b.length + 1) = [] := List.drop_eq_nil_of_le (by omega)
  simp only [parseIter, h1, hno, h2, Nat.add_sub_cancel, drop_past_comma, hdrop,
    if_false]
  simp

lemma parseIter_shrinks (s : List Char) (p : Point) (s3 : List Char)
    (h : parseIter s = BatchStep.move p s3) : s3.length < s.length := by
  by_cases h0 : s = []
  · rw [h0, parseIter_nil] at h
    exact BatchStep.noConfusion h
  · have hslen : 0 < s.length := List.length_pos.mpr h0
    have hipos : 1 ≤ StrFind1 s := StrFind1_pos s
    simp only [parseIter, if_neg h0] at h
    by_cases hi : s.length < StrFind1 s
    · simp [hi] at h
    · simp only [if_neg hi] at h
      by_cases h2 : (s.drop (StrFind1 s)).drop (StrFind1 (s.drop (StrFind1 s))) = []
      · simp [h2] at h
      · simp only [if_neg h2] at h
        split at h
        · rw [BatchStep.move.injEq] at h
          rw [← h.2]
          simp only [List.length_drop]
          omega
        · exact BatchStep.noConfusion h

lemma parseLoop_nil (fuel : Nat) : parseLoop fuel [] = ([], false) := by
  cases fuel <;> rfl

lemma parseLoop_move (fuel : Nat) (s : List Char) (p : Point) (s3 : List Char)
    (h : parseIter s = BatchStep.move p s3) :
    parseLoop (fuel + 1) s = (p :: (parseLoop fuel s3).1, (parseLoop fuel s3).2) := by
  simp [parseLoop, h]

lemma parseLoop_stop (fuel : Nat) (s : List Char) (h : parseIter s = BatchStep.stop) :
    parseLoop fuel s = ([], false) := by
  cases fuel <;> simp [parseLoop, h]

lemma parseLoop_err (fuel : Nat) (s : List Char)
    (h : parseIter s = BatchStep.rapidError) :
    parseLoop (fuel + 1) s = ([], true) := by
  simp [parseLoop, h]

lemma parseLoop_stable (n : Nat) : ∀ (s : List Char) (f g : Nat),
    s.length ≤ n → n < f → n < g → parseLoop f s = parseLoop g s := by
  induction n with
  | zero =>
      intro s f g hs hf hg
      have h0 : s = [] := List.length_eq_zero.mp (Nat.le_zero.mp hs)
      subst h0
      rw [parseLoop_nil, parseLoop_nil]
  | succ m ih =>
      intro s f g hs hf hg
      cases f with
      | zero => exact absurd hf (Nat.not_lt_zero _)
      | succ f2 =>
        cases g with
        | zero => exact absurd hg (Nat.not_lt_zero _)
        | succ g2 =>
          cases hit : parseIter s with
          | stop => rw [parseLoop_stop _ _ hit, parseLoop_stop _ _ hit]
          | rapidError => rw [parseLoop_err _ _ hit, parseLoop_err _ _ hit]
          | move p s3 =>
            rw [parseLoop_move _ _ _ _ hit, parseLoop_move _ _ _ _ hit]
            have hlt : s3.length < s.length := parseIter_shrinks s p s3 hit
            rw [ih s3 f2 g2 (by omega) (by omega) (by omega)]

lemma ParseAndMoveBatch_step (s : List Char) (p : Point) (s3 : List Char)
    (h : parseIter s = BatchStep.move p s3) :
    ParseAndMoveBatch s
      = (p :: (ParseAndMoveBatch s3).1, (ParseAndMoveBatch s3).2) := by
  unfold ParseAndMoveBatch
  rw [parseLoop_move _ _ _ _ h]
  have hlt := parseIter_shrinks s p s3 h
  rw [parseLoop_stable s3.length s3 s.length (s3.length + 1) le_rfl (by omega) (by omega)]

lemma ParseAndMoveBatch_stop (s : List Char) (h : parseIter s = BatchStep.stop) :
    ParseAndMoveBatch s = ([], false) :=
  parseLoop_stop _ _ h

lemma ParseAndMoveBatch_err (s : List Char) (h : parseIter s = BatchStep.rapidError) :
    ParseAndMoveBatch s = ([], true) :=
  parseLoop_err _ _ h

lemma ParseAndMoveBatch_nil : ParseAndMoveBatch [] = ([], false) := rfl

lemma toPoints_eq_nil (fs : List (List Char)) (h : toPoints fs = some []) : fs = [] := by
  match fs with
  | [] => rfl
  | [a] => simp [toPoints] at h
  | [a, b] => simp [toPoints] at h
  | a :: b :: c :: rest =>
      rcases hA : StrToVal a with _ | xa <;> rcases hB : StrToVal b with _ | xb <;>
        rcases hC : StrToVal c with _ | xc <;> rcases hR : toPoints rest with _ | ps <;>
        simp [toPoints, hA, hB, hC, hR] at h

lemma toPoints_eq_cons (fs : List (List Char)) (p : ℚ × ℚ × ℚ) (pts : List (ℚ × ℚ × ℚ))
    (h : toPoints fs = some (p :: pts)) :
    ∃ a b c rest, fs = a :: b :: c :: rest ∧ StrToVal a = some p.1 ∧
      StrToVal b = some p.2.1 ∧ StrToVal c = some p.2.2 ∧ toPoints rest = some pts := by
  match fs with
  | [] => simp [toPoints] at h
  | [a] => simp [toPoints] at h
  | [a, b] => simp [toPoints] at h
  | a :: b :: c :: rest =>
      refine ⟨a, b, c, rest, rfl, ?_⟩
      rcases hA : StrToVal a with _ | xa <;> rcases hB : StrToVal b with _ | xb <;>
        rcases hC : StrToVal c with _ | xc <;> rcases hR : toPoints rest with _ | ps <;>
        simp [toPoints, hA, hB, hC, hR] at h
      obtain ⟨rfl, rfl⟩ := h
      exact ⟨rfl, rfl, rfl, rfl⟩

lemma withTail_eq_join (fs : List (List Char)) (g : List Char) :
    withTail fs g = joinComma (fs ++ [g]) := by
  induction fs with
  | nil => rfl
  | cons f rest ih =>
      cases rest with
      | nil => rfl
      | cons f2 rest2 =>
          show f ++ ',' :: withTail (f2 :: rest2) g = joinComma ((f :: f2 :: rest2) ++ [g])
          rw [ih]
          rfl

lemma joinComma_cons (f : List Char) (gs : List (List Char)) (h : gs ≠ []) :
    joinComma (f :: gs) = f ++ ',' :: joinComma gs := by
  cases gs with
  | nil => exact absurd rfl h
  | cons g t => rfl

/-- Running the batch parser over a well-formed prefix of point triples
followed by an arbitrary remainder `s` (each field terminated by a comma)
executes exactly the prefix's moves and continues as on `s` alone, with the
same error outcome as on `s` alone. -/
lemma ParseAndMoveBatch_withTail :
    ∀ (pts : List (ℚ × ℚ × ℚ)) (fs : List (List Char)) (s : List Char),
      toPoints fs = some pts → (∀ f ∈ fs, ',' ∉ f) →
      ParseAndMoveBatch (withTail fs s)
        = (moveTargets pts ++ (ParseAndMoveBatch s).1, (ParseAndMoveBatch s).2) := by
  intro pts
  induction pts with
  | nil =>
      intro fs s h hcf
      rw [toPoints_eq_nil fs h]
      simp [withTail, moveTargets]
  | cons p pts2 ih =>
      intro fs s h hcf
      obtain ⟨a, b, c, rest, rfl, hx, hy, hz, hrest⟩ := toPoints_eq_cons fs p pts2 h
      have ha : ',' ∉ a := hcf a (by simp)
      have hb : ',' ∉ b := hcf b (by simp)
      have hc : ',' ∉ c := hcf c (by simp)
      have hcf2 : ∀ f ∈ rest, ',' ∉ f := fun f hf => hcf f (by simp [hf])
      have hshape : withTail (a :: b :: c :: rest) s
          = a ++ ',' :: (b ++ ',' :: (c ++ ',' :: withTail rest s)) := by
        simp [withTail]
      rw [hshape,
        ParseAndMoveBatch_step _ _ _ (parseIter_point_cons a b c (withTail rest s)
          p.1 p.2.1 p.2.2 ha hb hc hx hy hz),
        ih rest s hrest hcf2]
      simp [moveTargets]

/-- Running the batch parser over a payload of comma-separated well-formed
point triples, the last field unterminated, executes exactly the listed
moves and raises no error. -/
lemma ParseAndMoveBatch_joinComma :
    ∀ (pts : List (ℚ × ℚ × ℚ)) (fs : List (List Char)),
      toPoints fs = some pts → (∀ f ∈ fs, ',' ∉ f) →
      ParseAndMoveBatch (joinComma fs) = (moveTargets pts, false) := by
  intro pts
  induction pts with
  | nil =>
      intro fs h hcf
      rw [toPoints_eq_nil fs h]
      rfl
  | cons p pts2 ih =>
      intro fs h hcf
      obtain ⟨a, b, c, rest, rfl, hx, hy, hz, hrest⟩ := toPoints_eq_cons fs p pts2 h
      have ha : ',' ∉ a := hcf a (by simp)
      have hb : ',' ∉ b := hcf b (by simp)
      have hc : ',' ∉ c := hcf c (by simp)
      have hcf2 : ∀ f ∈ rest, ',' ∉ f := fun f hf => hcf f (by simp [hf])
      cases rest with
      | nil =>
          have hpts2 : pts2 = [] := by
            simpa [toPoints] using hrest.symm
          subst hpts2
          show ParseAndMoveBatch (a ++ ',' :: (b ++ ',' :: c)) = (moveTargets [p], false)
          rw [ParseAndMoveBatch_step _ _ _
            (parseIter_point_last a b c p.1 p.2.1 p.2.2 ha hb hc hx hy hz)]
          rfl
      | cons f2 rest2 =>
          show ParseAndMoveBatch
              (a ++ ',' :: (b ++ ',' :: (c ++ ',' :: joinComma (f2 :: rest2))))
            = (moveTargets (p :: pts2), false)
          rw [ParseAndMoveBatch_step _ _ _
            (parseIter_point_cons a b c (joinComma (f2 :: rest2))
              p.1 p.2.1 p.2.2 ha hb hc hx hy hz),
            ih (f2 :: rest2) hrest hcf2]
          rfl

lemma sentTokens_append (l1 l2 : List Out) :
    sentTokens (l1 ++ l2) = sentTokens l1 ++ sentTokens l2 :=
  List.filterMap_append l1 l2 _

lemma sentTokens_moves (ps : List Point) : sentTokens (ps.map Out.move) = [] := by
  induction ps with
  | nil => rfl
  | cons p ps ih => simp [sentTokens]

/-- Behaviour of the single-point converter on a payload with exactly three
comma-free fields: both `StrFind` calls stay in range, and the result is
decided by the three `StrToVal` conversions. -/
lemma ConvertSinglePoint_split (xs ys zs : List Char)
    (hxc : ',' ∉ xs) (hyc : ',' ∉ ys) (_hzc : ',' ∉ zs) :
    ConvertSocketStrToSinglePoint (xs ++ ',' :: (ys ++ ',' :: zs))
      = match StrToVal xs, StrToVal ys, StrToVal zs with
        | some x, some y, some z => ConvResult.ok (x, y, z)
        | _, _, _ => ConvResult.fail := by
  have hlenP : (xs ++ ',' :: (ys ++ ',' :: zs)).length
      = xs.length + ys.length + zs.length + 2 := by
    simp [List.length_append]
    omega
  have hd1 : (xs ++ ',' :: (ys ++ ',' :: zs)).drop (xs.length + 1) = ys ++ ',' :: zs :=
    drop_past_comma xs _ ','
  have hS1 : StrFind (xs ++ ',' :: (ys ++ ',' :: zs)) 1 = some (xs.length + 1) := by
    simp [StrFind, StrFind1_found xs _ hxc]
  have hS2 : StrFind (xs ++ ',' :: (ys ++ ',' :: zs)) (xs.length + 1 + 1)
      = some (xs.length + ys.length + 2) := by
    have hcond : 1 ≤ xs.length + 1 + 1
        ∧ xs.length + 1 + 1 ≤ (xs ++ ',' :: (ys ++ ',' :: zs)).length + 1 := by
      constructor
      · omega
      · rw [hlenP]; omega
    simp only [StrFind, Nat.add_sub_cancel, hd1, StrFind1_found ys _ hyc, if_pos hcond]
    congr 1
    omega
  have hnolt : ¬ ((xs ++ ',' :: (ys ++ ',' :: zs)).length < xs.length + ys.length + 2) := by
    rw [hlenP]; omega
  have hp1 : StrPart (xs ++ ',' :: (ys ++ ',' :: zs)) 1 (xs.length + 1 - 1) = xs := by
    simp [StrPart, take_at_comma]
  have hp2 : StrPart (xs ++ ',' :: (ys ++ ',' :: zs)) (xs.length + 1 + 1)
      (xs.length + ys.length + 2 - (xs.length + 1) - 1) = ys := by
    have harg : xs.length + ys.length + 2 - (xs.length + 1) - 1 = ys.length := by omega
    simp only [StrPart, Nat.add_sub_cancel, hd1, harg]
    exact take_at_comma ys _ ','
  have hd2 : (xs ++ ',' :: (ys ++ ',' :: zs)).drop (xs.length + ys.length + 2) = zs := by
    have h21 : xs.length + ys.length + 2 = (xs.length + 1) + (ys.length + 1) := by omega
    rw [h21, ← List.drop_drop, hd1, drop_past_comma]
  have hp3 : StrPart (xs ++ ',' :: (ys ++ ',' :: zs)) (xs.length + ys.length + 2 + 1)
      ((xs ++ ',' :: (ys ++ ',' :: zs)).length - (xs.length + ys.length + 2)) = zs := by
    have hlen3 : (xs ++ ',' :: (ys ++ ',' :: zs)).length - (xs.length + ys.length + 2)
        = zs.length := by rw [hlenP]; omega
    simp only [StrPart, Nat.add_sub_cancel, hd2, hlen3, List.take_length]
  simp only [ConvertSocketStrToSinglePoint, hS1, hS2, hnolt, hp1, hp2, hp3]
  rcases hA : StrToVal xs with _ | xa <;> rcases hB : StrToVal ys with _ | yb <;>
    rcases hC : StrToVal zs with _ | zc <;> simp

/-- A payload without any comma raises a runtime error in the single-point
converter: the first `StrFind` returns `StrLen + 1` and the second one
starts out of range. -/
lemma ConvertSinglePoint_nocomma (s : List Char) (h : ',' ∉ s) :
    ConvertSocketStrToSinglePoint s = ConvResult.rapidError := by
  have h1 : StrFind1 s = s.length + 1 := StrFind1_not_found s h
  have hS1 : StrFind s 1 = some (s.length + 1) := by
    simp [StrFind, h1]
  have hS2 : StrFind s (s.length + 1 + 1) = none := by
    have hc : ¬ (1 ≤ s.length + 1 + 1 ∧ s.length + 1 + 1 ≤ s.length + 1) := by omega
    simp [StrFind, hc]
  simp [ConvertSocketStrToSinglePoint, hS1, hS2]

/-- A payload with exactly one comma raises a runtime error in the
single-point converter: the second `StrFind` returns `StrLen + 1` and the
third `StrPart` is called with negative length. -/
lemma ConvertSinglePoint_onecomma (u v : List Char) (hu : ',' ∉ u) (hv : ',' ∉ v) :
    ConvertSocketStrToSinglePoint (u ++ ',' :: v) = ConvResult.rapidError := by
  have hlenP : (u ++ ',' :: v).length = u.length + v.length + 1 := by
    simp [List.length_append]
    omega
  have hd1 : (u ++ ',' :: v).drop (u.length + 1) = v := drop_past_comma u v ','
  have hS1 : StrFind (u ++ ',' :: v) 1 = some (u.length + 1) := by
    simp [StrFind, StrFind1_found u _ hu]
  have hS2 : StrFind (u ++ ',' :: v) (u.length + 1 + 1)
      = some (u.length + v.length + 2) := by
    have hcond : 1 ≤ u.length + 1 + 1
        ∧ u.length + 1 + 1 ≤ (u ++ ',' :: v).length + 1 := by
      constructor
      · omega
      · rw [hlenP]; omega
    simp only [StrFind, Nat.add_sub_cancel, hd1, StrFind1_not_found v hv, if_pos hcond]
    congr 1
    omega
  simp [ConvertSocketStrToSinglePoint, hS1, hS2]
  intro hcontra
  exact absurd hcontra (by omega)

/-- C1 (counterexample): the claim "the controller acknowledges each received
batch payload with `R` then `Re`, and a timeout yields `D`" fails at the
batch payload `"1"`: the comma-free payload drives the parser's second
`StrFind` past the string end, the runtime error reaches the `ERROR`
handler, and the controller sends `E` — no `R`/`Re` acknowledgement and no
`D` ever follow. -/
theorem c1_counterexample :
    sentTokens (HandleCase1_DrawBatchPoints
        (List.map SockIn.msg [['1']] ++ SockIn.timeout :: []))
        = [RESP_E]
      ∧ sentTokens (HandleCase1_DrawBatchPoints
          (List.map SockIn.msg [['1']] ++ SockIn.timeout :: []))
        ≠ ([['1']].flatMap fun _ => [RESP_R, RESP_RE]) ++ [RESP_D] := by
  decide

lemma HandleCase1_ok_trace : ∀ (bs : List (List Char)) (more : List SockIn),
    (∀ b ∈ bs, (ParseAndMoveBatch b).2 = false) →
    sentTokens (HandleCase1_DrawBatchPoints
        (List.map SockIn.msg bs ++ SockIn.timeout :: more))
      = (bs.flatMap fun _ => [RESP_R, RESP_RE]) ++ [RESP_D] := by
  intro bs
  induction bs with
  | nil => intro more _; rfl
  | cons b bs2 ih =>
      intro more hok
      have hb : (ParseAndMoveBatch b).2 = false := hok b (by simp)
      show sentTokens ((ParseAndMoveBatch b).1.map Out.move ++
          (if (ParseAndMoveBatch b).2 then [Out.send RESP_E]
           else [Out.send RESP_R, Out.send RESP_RE] ++
             HandleCase1_DrawBatchPoints (List.map SockIn.msg bs2 ++ SockIn.timeout :: more)))
        = _
      rw [hb, sentTokens_append, sentTokens_moves]
      simp only [Bool.false_eq_true, if_false, List.nil_append]
      rw [sentTokens_append, ih more (fun x hx => hok x (by simp [hx]))]
      simp [sentTokens]

/-- C1 (amended): in a `DrawBatch` exchange, every received batch payload
whose parse completes without a controller runtime error is acknowledged
with token `R` followed by token `Re`; when no further batch arrives and the
receive times out (the fixed `DRAW_BATCH_RECEIVE_TIMEOUT` of 10 seconds),
the controller sends token `D` and ends the draw exchange — the timeout path
is the benign end-of-stream signal, not the error (`E`) path.  (A payload
that makes the parser's `StrFind` run past the string end — a nonempty
comma-free final field with no comma after it — instead raises a runtime
error: the controller sends `E` and the exchange ends, see the
counterexample.) -/
theorem c1_errorfree_ack_tokens_and_timeout_done (bs : List (List Char))
    (more : List SockIn) (hok : ∀ b ∈ bs, (ParseAndMoveBatch b).2 = false) :
    sentTokens (HandleCase1_DrawBatchPoints
        (List.map SockIn.msg bs ++ SockIn.timeout :: more))
        = (bs.flatMap fun _ => [RESP_R, RESP_RE]) ++ [RESP_D]
      ∧ DRAW_BATCH_RECEIVE_TIMEOUT = 10 :=
  ⟨HandleCase1_ok_trace bs more hok, rfl⟩

theorem c1_errorfree_ack_tokens_and_timeout_done_witness :
    sentTokens (HandleCase1_DrawBatchPoints
        (List.map SockIn.msg [['a', ',', 'b']] ++ SockIn.timeout :: []))
        = ([['a', ',', 'b']].flatMap fun _ => [RESP_R, RESP_RE]) ++ [RESP_D]
      ∧ DRAW_BATCH_RECEIVE_TIMEOUT = 10 :=
  c1_errorfree_ack_tokens_and_timeout_done [['a', ',', 'b']] [] (by decide)

/-- C3: for a received command-case message, a message that converts as a
number is acknowledged with `R` then `C` before any payload exchange, while a
message that does not convert gets `E` and no payload exchange takes place. -/
theorem c3_command_case_ack (cmd : List Char) (ins : List SockIn) :
    ((ConvertSocketStrToCmd cmd).isSome →
      ∃ rest, MainIteration cmd ins = Out.send RESP_R :: Out.send RESP_C :: rest)
    ∧ (ConvertSocketStrToCmd cmd = none → MainIteration cmd ins = [Out.send RESP_E]) := by
  constructor
  · intro h
    rcases hn : ConvertSocketStrToCmd cmd with _ | n
    · rw [hn] at h; exact absurd h (by simp)
    · refine ⟨if n = 0 then HandleCase0_MoveSinglePoint ins
        else if n = 1 then HandleCase1_DrawBatchPoints ins
        else [Out.send RESP_E], ?_⟩
      simp [MainIteration, hn]
  · intro h
    simp [MainIteration, h]

theorem c3_command_case_ack_witness :
    (∃ rest, MainIteration ['0'] [] = Out.send RESP_R :: Out.send RESP_C :: rest)
    ∧ MainIteration ['q'] [] = [Out.send RESP_E] :=
  ⟨(c3_command_case_ack ['0'] []).1 (by decide),
   (c3_command_case_ack ['q'] []).2 (by decide)⟩

/-- C9: a command message that converts as a number other than `0` or `1`
still receives `R` then `C` (sent before the case value is examined),
followed by `E` — so `R`/`C` do not certify a valid command case. -/
theorem c9_invalid_case_still_acked (cmd : List Char) (ins : List SockIn) (n : ℚ)
    (h : ConvertSocketStrToCmd cmd = some n) (h0 : n ≠ 0) (h1 : n ≠ 1) :
    MainIteration cmd ins = [Out.send RESP_R, Out.send RESP_C, Out.send RESP_E] := by
  simp [MainIteration, h, h0, h1]

theorem c9_invalid_case_still_acked_witness :
    MainIteration ['2'] [] = [Out.send RESP_R, Out.send RESP_C, Out.send RESP_E] :=
  c9_invalid_case_still_acked ['2'] [] ((2 : ℕ) : ℚ)
    (StrToVal_digit '2' (by decide)) (by norm_num) (by norm_num)

/-- C2: in a travel (case `0`) exchange, a received payload with exactly two
commas and three numeric fields is acknowledged with `R`, followed by one
`MoveL` to `Offs(WorkSpaceCenter1, x, y, z)` and then `D`; a two-comma
payload with a non-numeric field yields `E` and no motion; a payload with no
comma or exactly one comma raises a runtime error inside the converter
(`StrFind` out of range, respectively negative `StrPart` length), and the
`ERROR` handler likewise sends `E` with no motion.  A receive timeout or
socket failure also yields `E`. -/
theorem c2_travel_exchange (s : List Char) (ins : List SockIn) :
    (∀ xs ys zs, ',' ∉ xs → ',' ∉ ys → ',' ∉ zs →
      s = xs ++ ',' :: (ys ++ ',' :: zs) →
      (∀ x y z, StrToVal xs = some x → StrToVal ys = some y → StrToVal zs = some z →
        HandleCase0_MoveSinglePoint (SockIn.msg s :: ins)
          = [Out.send RESP_R, Out.move (Offs WorkSpaceCenter1 x y z), Out.send RESP_D])
      ∧ ((StrToVal xs = none ∨ StrToVal ys = none ∨ StrToVal zs = none) →
        HandleCase0_MoveSinglePoint (SockIn.msg s :: ins) = [Out.send RESP_E]))
    ∧ ((',' ∉ s) → HandleCase0_MoveSinglePoint (SockIn.msg s :: ins) = [Out.send RESP_E])
    ∧ (∀ u v, ',' ∉ u → ',' ∉ v → s = u ++ ',' :: v →
        HandleCase0_MoveSinglePoint (SockIn.msg s :: ins) = [Out.send RESP_E])
    ∧ HandleCase0_MoveSinglePoint (SockIn.timeout :: ins) = [Out.send RESP_E]
    ∧ HandleCase0_MoveSinglePoint (SockIn.fail :: ins) = [Out.send RESP_E] := by
  refine ⟨?_, ?_, ?_, rfl, rfl⟩
  · intro xs ys zs hxc hyc hzc hs
    subst hs
    constructor
    · intro x y z hx hy hz
      have hconv : ConvertSocketStrToSinglePoint (xs ++ ',' :: (ys ++ ',' :: zs))
          = ConvResult.ok (x, y, z) := by
        rw [ConvertSinglePoint_split xs ys zs hxc hyc hzc, hx, hy, hz]
      simp [HandleCase0_MoveSinglePoint, hconv]
    · intro hfail
      have hconv : ConvertSocketStrToSinglePoint (xs ++ ',' :: (ys ++ ',' :: zs))
          = ConvResult.fail := by
        rw [ConvertSinglePoint_split xs ys zs hxc hyc hzc]
        rcases hA : StrToVal xs with _ | xa <;> rcases hB : StrToVal ys with _ | yb <;>
          rcases hC : StrToVal zs with _ | zc <;> simp_all
      simp [HandleCase0_MoveSinglePoint, hconv]
  · intro hnc
    simp [HandleCase0_MoveSinglePoint, ConvertSinglePoint_nocomma s hnc]
  · intro u v huc hvc hs
    subst hs
    simp [HandleCase0_MoveSinglePoint, ConvertSinglePoint_onecomma u v huc hvc]

theorem c2_travel_exchange_witness :
    HandleCase0_MoveSinglePoint [SockIn.msg ['1', ',', '2', ',', '3']]
        = [Out.send RESP_R,
           Out.move (Offs WorkSpaceCenter1 ((1 : ℕ) : ℚ) ((2 : ℕ) : ℚ) ((3 : ℕ) : ℚ)),
           Out.send RESP_D]
      ∧ HandleCase0_MoveSinglePoint [SockIn.msg ['9']] = [Out.send RESP_E] := by
  constructor
  · exact (((c2_travel_exchange ['1', ',', '2', ',', '3'] []).1 ['1'] ['2'] ['3']
      (by decide) (by decide) (by decide) rfl).1 _ _ _
      (StrToVal_digit '1' (by decide)) (StrToVal_digit '2' (by decide))
      (StrToVal_digit '3' (by decide)))
  · exact (c2_travel_exchange ['9'] []).2.1 (by decide)

/-- C4 (counterexample): the claim "a batch whose trailing point is
truncated is still acknowledged with `R` then `Re`" fails for the payload
`"1,2,3,4"` (one dangling field after a well-formed triple): the loop
iteration that starts on the comma-free suffix `"4"` drives `StrFind` out of
range, the runtime error reaches the `ERROR` handler, and the controller
sends `E` — the batch is never acknowledged with `Re`. -/
theorem c4_counterexample :
    sentTokens (HandleCase1_DrawBatchPoints
        [SockIn.msg ['1', ',', '2', ',', '3', ',', '4']]) = [RESP_E]
      ∧ RESP_RE ∉ sentTokens (HandleCase1_DrawBatchPoints
          [SockIn.msg ['1', ',', '2', ',', '3', ',', '4']]) := by
  decide

/-- C4 (amended): how a draw batch with a truncated trailing point is
handled depends on how many dangling fields follow the well-formed triples.
With two dangling comma-free fields (`"...,a,b"`), the iteration parses two
fields, finds the string exhausted before a third, and ends quietly: the
prefix triples are drawn and the batch is acknowledged `R` then `Re`.  With
one dangling nonempty comma-free field (`"...,a"`), the iteration's second
`StrFind` starts past `StrLen + 1`: a runtime error is raised after the
prefix triples are drawn, and the `ERROR` handler sends `E` instead of the
`R`/`Re` acknowledgement, ending the exchange.  A batch parsing without
error but yielding zero points (e.g. non-numeric fields) still gets `R` then
`Re`; a bare nonempty comma-free payload gets `E`. -/
theorem c4_truncated_batch_behaviour (ins : List SockIn) (fs : List (List Char))
    (pts : List (ℚ × ℚ × ℚ)) (a b s : List Char)
    (hfs : toPoints fs = some pts) (hcf : ∀ f ∈ fs, ',' ∉ f)
    (ha : ',' ∉ a) (hb : ',' ∉ b) :
    (HandleCase1_DrawBatchPoints (SockIn.msg (withTail fs (a ++ ',' :: b)) :: ins)
        = (moveTargets pts).map Out.move ++ [Out.send RESP_R, Out.send RESP_RE]
          ++ HandleCase1_DrawBatchPoints ins)
    ∧ (a ≠ [] →
        HandleCase1_DrawBatchPoints (SockIn.msg (withTail fs a) :: ins)
          = (moveTargets pts).map Out.move ++ [Out.send RESP_E])
    ∧ (ParseAndMoveBatch s = ([], false) →
        HandleCase1_DrawBatchPoints (SockIn.msg s :: ins)
          = [Out.send RESP_R, Out.send RESP_RE] ++ HandleCase1_DrawBatchPoints ins)
    ∧ (a ≠ [] →
        HandleCase1_DrawBatchPoints (SockIn.msg a :: ins) = [Out.send RESP_E]) := by
  refine ⟨?_, ?_, ?_, ?_⟩
  · have hpair : ParseAndMoveBatch (withTail fs (a ++ ',' :: b))
        = (moveTargets pts, false) := by
      rw [ParseAndMoveBatch_withTail pts fs _ hfs hcf,
        ParseAndMoveBatch_stop _ (parseIter_two_field a b ha hb)]
      simp
    show (ParseAndMoveBatch (withTail fs (a ++ ',' :: b))).1.map Out.move ++ _ = _
    rw [hpair]
    simp
  · intro hane
    have hpair : ParseAndMoveBatch (withTail fs a) = (moveTargets pts, true) := by
      rw [ParseAndMoveBatch_withTail pts fs a hfs hcf,
        ParseAndMoveBatch_err a (parseIter_err a ha hane)]
      simp
    show (ParseAndMoveBatch (withTail fs a)).1.map Out.move ++ _ = _
    rw [hpair]
    simp
  · intro hs
    show (ParseAndMoveBatch s).1.map Out.move ++ _ = _
    rw [hs]
    simp
  · intro hane
    have hpair : ParseAndMoveBatch a = ([], true) :=
      ParseAndMoveBatch_err a (parseIter_err a ha hane)
    show (ParseAndMoveBatch a).1.map Out.move ++ _ = _
    rw [hpair]
    simp

theorem c4_truncated_batch_behaviour_witness :
    (HandleCase1_DrawBatchPoints
        [SockIn.msg (withTail [['1'], ['2'], ['3']] (['4'] ++ ',' :: ['5']))]
        = (moveTargets [(((1 : ℕ) : ℚ), ((2 : ℕ) : ℚ), ((3 : ℕ) : ℚ))]).map Out.move
          ++ [Out.send RESP_R, Out.send RESP_RE] ++ HandleCase1_DrawBatchPoints [])
    ∧ (HandleCase1_DrawBatchPoints [SockIn.msg (withTail [['1'], ['2'], ['3']] ['4'])]
        = (moveTargets [(((1 : ℕ) : ℚ), ((2 : ℕ) : ℚ), ((3 : ℕ) : ℚ))]).map Out.move
          ++ [Out.send RESP_E])
    ∧ (HandleCase1_DrawBatchPoints [SockIn.msg ['a', ',', 'b']]
        = [Out.send RESP_R, Out.send RESP_RE] ++ HandleCase1_DrawBatchPoints [])
    ∧ HandleCase1_DrawBatchPoints [SockIn.msg ['4']] = [Out.send RESP_E] := by
  have htp : toPoints [['1'], ['2'], ['3']]
      = some [(((1 : ℕ) : ℚ), ((2 : ℕ) : ℚ), ((3 : ℕ) : ℚ))] := by
    simp [toPoints, StrToVal_digit '1' (by decide), StrToVal_digit '2' (by decide),
      StrToVal_digit '3' (by decide)]
  have h := c4_truncated_batch_behaviour [] [['1'], ['2'], ['3']]
    [(((1 : ℕ) : ℚ), ((2 : ℕ) : ℚ), ((3 : ℕ) : ℚ))] ['4'] ['5'] ['a', ',', 'b']
    htp (by decide) (by decide) (by decide)
  exact ⟨h.1, h.2.1 (by decide), h.2.2.1 (by decide), h.2.2.2 (by decide)⟩

/-- C5: a batch payload consisting of `3k` numeric comma-free fields —
whether the last field is terminated by a trailing comma or not — makes
`ParseAndMoveBatch` execute exactly `k` `MoveL`s, in payload order, the
`i`-th to `Offs(WorkSpaceCenter1, x_i, y_i, z_i)`, and raises no runtime
error. -/
theorem c5_batch_moves_per_point (fs : List (List Char)) (pts : List (ℚ × ℚ × ℚ))
    (_hne : fs ≠ []) (hcf : ∀ f ∈ fs, ',' ∉ f) (hfs : toPoints fs = some pts) :
    ParseAndMoveBatch (joinComma fs) = (moveTargets pts, false)
    ∧ ParseAndMoveBatch (withTail fs []) = (moveTargets pts, false) := by
  constructor
  · exact ParseAndMoveBatch_joinComma pts fs hfs hcf
  · rw [ParseAndMoveBatch_withTail pts fs [] hfs hcf, ParseAndMoveBatch_nil]
    simp

theorem c5_batch_moves_per_point_witness :
    ParseAndMoveBatch (joinComma [['1'], ['2'], ['3'], ['4'], ['5'], ['6']])
        = (moveTargets [(((1 : ℕ) : ℚ), ((2 : ℕ) : ℚ), ((3 : ℕ) : ℚ)),
            (((4 : ℕ) : ℚ), ((5 : ℕ) : ℚ), ((6 : ℕ) : ℚ))], false)
      ∧ ParseAndMoveBatch (withTail [['1'], ['2'], ['3'], ['4'], ['5'], ['6']] [])
        = (moveTargets [(((1 : ℕ) : ℚ), ((2 : ℕ) : ℚ), ((3 : ℕ) : ℚ)),
            (((4 : ℕ) : ℚ), ((5 : ℕ) : ℚ), ((6 : ℕ) : ℚ))], false) := by
  have htp : toPoints [['1'], ['2'], ['3'], ['4'], ['5'], ['6']]
      = some [(((1 : ℕ) : ℚ), ((2 : ℕ) : ℚ), ((3 : ℕ) : ℚ)),
          (((4 : ℕ) : ℚ), ((5 : ℕ) : ℚ), ((6 : ℕ) : ℚ))] := by
    simp [toPoints, StrToVal_digit '1' (by decide), StrToVal_digit '2' (by decide),
      StrToVal_digit '3' (by decide), StrToVal_digit '4' (by decide),
      StrToVal_digit '5' (by decide), StrToVal_digit '6' (by decide)]
  exact c5_batch_moves_per_point [['1'], ['2'], ['3'], ['4'], ['5'], ['6']] _
    (by decide) (by decide) htp

/-- C8: when a point triple inside a batch has a field `StrToVal` rejects
(the triple being comma-terminated, i.e. followed by a comma or by nothing),
`ParseAndMoveBatch` sets `current_pos` past the string end: the points
before the malformed one are drawn, everything after it — including
well-formed triples — is skipped, and no runtime error is raised. -/
theorem c8_malformed_point_aborts_rest (fs : List (List Char))
    (pts : List (ℚ × ℚ × ℚ)) (a b c t : List Char)
    (hfs : toPoints fs = some pts) (hcf : ∀ f ∈ fs, ',' ∉ f)
    (ha : ',' ∉ a) (hb : ',' ∉ b) (hc : ',' ∉ c)
    (hbad : StrToVal a = none ∨ StrToVal b = none ∨ StrToVal c = none)
    (ht : t = [] ∨ ∃ t2, t = ',' :: t2) :
    ParseAndMoveBatch (withTail fs (a ++ ',' :: (b ++ ',' :: (c ++ t))))
      = (moveTargets pts, false) := by
  rw [ParseAndMoveBatch_withTail pts fs _ hfs hcf]
  rcases ht with rfl | ⟨t2, rfl⟩
  · rw [List.append_nil,
      ParseAndMoveBatch_stop _ (parseIter_fail_last a b c ha hb hc hbad)]
    simp
  · rw [ParseAndMoveBatch_stop _ (parseIter_fail_cons a b c t2 ha hb hc hbad)]
    simp

theorem c8_malformed_point_aborts_rest_witness :
    ParseAndMoveBatch (withTail [['1'], ['2'], ['3']]
        (['q'] ++ ',' :: (['5'] ++ ',' :: (['6'] ++ ',' :: ['7', ',', '8', ',', '9']))))
      = (moveTargets [(((1 : ℕ) : ℚ), ((2 : ℕ) : ℚ), ((3 : ℕ) : ℚ))], false) := by
  have htp : toPoints [['1'], ['2'], ['3']]
      = some [(((1 : ℕ) : ℚ), ((2 : ℕ) : ℚ), ((3 : ℕ) : ℚ))] := by
    simp [toPoints, StrToVal_digit '1' (by decide), StrToVal_digit '2' (by decide),
      StrToVal_digit '3' (by decide)]
  exact c8_malformed_point_aborts_rest [['1'], ['2'], ['3']] _ ['q'] ['5'] ['6']
    (',' :: ['7', ',', '8', ',', '9']) htp (by decide) (by decide) (by decide)
    (by decide) (Or.inl (by decide)) (Or.inr ⟨['7', ',', '8', ',', '9'], rfl⟩)

/-- C6: every operation that would start drawing execution — submitting a new
drawing (`handleProcessAndDrawUploadedImage`), resume, or restart — invoked
while a drawing is already active is rejected synchronously: nothing is
emitted to the backend and the whole component state (in particular the
active flag, the drawing id, and the progress) is left unchanged. -/
theorem c6_reject_while_drawing_active (robot connected : Bool)
    (path : Option String) (history : List DrawingHistoryItem) (st : UiState)
    (id : String) (hactive : st.isDrawingActive = true) :
    handleProcessAndDrawUploadedImage robot path st = (st, [])
    ∧ handleResumeDrawingFromHistory connected history st id = (st, [])
    ∧ handleRestartDrawingFromHistory connected history st id = (st, []) := by
  refine ⟨?_, ?_, ?_⟩ <;>
    simp [handleProcessAndDrawUploadedImage, handleResumeDrawingFromHistory,
      handleRestartDrawingFromHistory, hactive]

theorem c6_reject_while_drawing_active_witness :
    handleProcessAndDrawUploadedImage false none
        ⟨true, some "d1", "m", 5, false, "k", none, "r"⟩
      = (⟨true, some "d1", "m", 5, false, "k", none, "r"⟩, [])
    ∧ handleResumeDrawingFromHistory true [] ⟨true, some "d1", "m", 5, false, "k", none, "r"⟩ "d1"
      = (⟨true, some "d1", "m", 5, false, "k", none, "r"⟩, [])
    ∧ handleRestartDrawingFromHistory true [] ⟨true, some "d1", "m", 5, false, "k", none, "r"⟩ "d1"
      = (⟨true, some "d1", "m", 5, false, "k", none, "r"⟩, []) :=
  c6_reject_while_drawing_active false true none []
    ⟨true, some "d1", "m", 5, false, "k", none, "r"⟩ "d1" rfl

/-- C7: an accepted resume (no drawing active, backend connected) sets the
progress percentage to the history record's stored progress — not zero — and
emits the resume request for that id; an accepted restart always resets the
progress percentage to `0` and emits the restart request for that id. -/
theorem c7_resume_restores_progress_restart_resets
    (history : List DrawingHistoryItem) (st : UiState) (id : String)
    (item : DrawingHistoryItem) (hactive : st.isDrawingActive = false)
    (hfind : history.find? (fun it => it.drawing_id = id) = some item) :
    ((handleResumeDrawingFromHistory true history st id).1.drawingProgressPercent
        = item.progress
      ∧ (handleResumeDrawingFromHistory true history st id).2
        = [Emit.resumeDrawingRequest id])
    ∧ ((handleRestartDrawingFromHistory true history st id).1.drawingProgressPercent = 0
      ∧ (handleRestartDrawingFromHistory true history st id).2
        = [Emit.restartDrawingRequest id]) := by
  refine ⟨⟨?_, ?_⟩, ?_, ?_⟩ <;>
    simp [handleResumeDrawingFromHistory, handleRestartDrawingFromHistory,
      hactive, hfind]
  by_cases hp : item.progress = 0 <;> simp [jsOrZero, hp]

theorem c7_resume_restores_progress_restart_resets_witness :
    ((handleResumeDrawingFromHistory true [⟨"d1", "img.png", 42⟩]
          ⟨false, none, "m", 0, false, "k", none, "r"⟩ "d1").1.drawingProgressPercent
        = (42 : ℚ)
      ∧ (handleResumeDrawingFromHistory true [⟨"d1", "img.png", 42⟩]
          ⟨false, none, "m", 0, false, "k", none, "r"⟩ "d1").2
        = [Emit.resumeDrawingRequest "d1"])
    ∧ ((handleRestartDrawingFromHistory true [⟨"d1", "img.png", 42⟩]
          ⟨false, none, "m", 0, false, "k", none, "r"⟩ "d1").1.drawingProgressPercent = 0
      ∧ (handleRestartDrawingFromHistory true [⟨"d1", "img.png", 42⟩]
          ⟨false, none, "m", 0, false, "k", none, "r"⟩ "d1").2
        = [Emit.restartDrawingRequest "d1"]) :=
  c7_resume_restores_progress_restart_resets [⟨"d1", "img.png", 42⟩]
    ⟨false, none, "m", 0, false, "k", none, "r"⟩ "d1" ⟨"d1", "img.png", 42⟩
    rfl (by decide)

/-- C10: when all three custom-coordinate inputs parse as numbers, the emitted
payload maps the input labelled `X (paper, mm)` (`xCoord`) to key `x_py`, the
input labelled `Depth (pen, mm)` (`yCoord`) to key `z_py`, and the input
labelled `Side (paper, mm)` (`zCoord`) to key `y_py` — the first, second and
third argument of `Emit.sendCustomCoordinates` respectively; when any of the
three fails to parse (`parseFloat` returns `NaN`), nothing is emitted at
all. -/
theorem c10_custom_coordinates_mapping (robot sockp : Bool) (st : UiState)
    (xc yc zc : String) :
    (∀ x y z : JsNum, jsParseFloat xc = some x → jsParseFloat yc = some y →
      jsParseFloat zc = some z → robot = true → st.isDrawingActive = false →
      sockp = true →
      (handleSendCustomCoordinates robot sockp st xc yc zc).2
        = [Emit.sendCustomCoordinates x y z])
    ∧ ((jsParseFloat xc = none ∨ jsParseFloat yc = none ∨ jsParseFloat zc = none) →
      (handleSendCustomCoordinates robot sockp st xc yc zc).2 = [])
    ∧ xCoordLabel = "X (paper, mm):" ∧ yCoordLabel = "Depth (pen, mm):"
    ∧ zCoordLabel = "Side (paper, mm):" := by
  refine ⟨?_, ?_, rfl, rfl, rfl⟩
  · intro x y z hx hy hz hr ha hs
    subst hr
    subst hs
    simp [handleSendCustomCoordinates, hx, hy, hz, ha]
  · intro hfail
    by_cases hr : robot <;> by_cases hact : st.isDrawingActive <;>
      rcases hA : jsParseFloat xc with _ | xa <;>
      rcases hB : jsParseFloat yc with _ | yb <;>
      rcases hC : jsParseFloat zc with _ | zc2 <;>
      simp_all [handleSendCustomCoordinates]

theorem c10_custom_coordinates_mapping_witness :
    (handleSendCustomCoordinates true true ⟨false, none, "m", 0, false, "k", none, "r"⟩
        (String.mk ['1']) (String.mk ['2']) (String.mk ['3'])).2
      = [Emit.sendCustomCoordinates (JsNum.fin 1) (JsNum.fin 2) (JsNum.fin 3)]
    ∧ (handleSendCustomCoordinates true true ⟨false, none, "m", 0, false, "k", none, "r"⟩
        (String.mk ['q']) (String.mk ['2']) (String.mk ['3'])).2 = [] := by
  have h1 : jsParseFloat (String.mk ['1']) = some (JsNum.fin 1) := by
    rw [jsParseFloat_digit '1' (by decide)]
    norm_num [show ('1'.toNat - 48 : Nat) = 1 from by decide]
  have h2 : jsParseFloat (String.mk ['2']) = some (JsNum.fin 2) := by
    rw [jsParseFloat_digit '2' (by decide)]
    norm_num [show ('2'.toNat - 48 : Nat) = 2 from by decide]
  have h3 : jsParseFloat (String.mk ['3']) = some (JsNum.fin 3) := by
    rw [jsParseFloat_digit '3' (by decide)]
    norm_num [show ('3'.toNat - 48 : Nat) = 3 from by decide]
  constructor
  · exact (c10_custom_coordinates_mapping true true
      ⟨false, none, "m", 0, false, "k", none, "r"⟩
      (String.mk ['1']) (String.mk ['2']) (String.mk ['3'])).1
      (JsNum.fin 1) (JsNum.fin 2) (JsNum.fin 3) h1 h2 h3 rfl rfl rfl
  · exact (c10_custom_coordinates_mapping true true
      ⟨false, none, "m", 0, false, "k", none, "r"⟩
      (String.mk ['q']) (String.mk ['2']) (String.mk ['3'])).2.1 (Or.inl (by decide))
